import Mathlib

/-!
Verification of the Schedule Integrity Validation Engine of the
OR-DASHBOARD repository (src/app.py), as a shallow embedding in Lean 4.

The embedding follows the source line by line:
* the session table built by `load_god_mode_data` (app.py lines 80-114)
  becomes `RawRow` (one CSV row) and `normalize` (the derived columns);
* the validation tab's checks (app.py lines 400-461) become the
  functions `rc`, `fc_v`, `overlap_fails`, `pat_ok`, `badCount`, `rchk`,
  `ra`, `sessionsOk` and the aggregate `allChecksOk`.

Pandas grouping is modelled by first-occurrence deduplication of keys
(`uniqueFirst`, the order pandas `Series.unique` keeps) plus filtering;
every counted result is independent of the key order, so the sorted
order pandas `groupby` uses yields the same numbers.
-/

/-- First-occurrence deduplication with an accumulator of already seen
elements; `uniqueFirst` below instantiates `seen := []`. -/
def uniqueFirstAux [DecidableEq α] (seen : List α) : List α → List α
  | [] => []
  | a :: rest =>
    if a ∈ seen then uniqueFirstAux seen rest
    else a :: uniqueFirstAux (a :: seen) rest

/-- The distinct elements of a list, first occurrences first — the order
pandas `Series.unique` returns. -/
def uniqueFirst [DecidableEq α] (l : List α) : List α :=
  uniqueFirstAux [] l

/-! ## Data model (app.py lines 32-57 and 80-114) -/

/-- One raw row of the schedule CSV `final_strict_timetable`, the columns
the loader reads (app.py lines 87-93). `Room_Number` is kept as the
string pandas `astype(str)` produces. -/
structure RawRow where
  rDate : String
  rWeek : Int
  rDay : String
  rTimeSlot : String
  rRoomNumber : String
  rCourseSection : String
deriving DecidableEq, Repr

/-- One normalized session row of the dataframe `df_all`: the raw columns
plus the derived columns the loader adds (app.py lines 87-102). `rawSlot`
is the original `Time_Slot` text (still a column of the frame and used by
the overlap check's groupby), `slot` the canonical slot key. -/
structure Session where
  date : String
  week : Int
  day : String
  rawSlot : String
  slot : String
  room : String
  sectionId : String
  course : String
  faculty : String
deriving DecidableEq, Repr

/-- app.py line 33. -/
def WD_SLOTS : List String := ["09:00", "10:45", "12:30", "14:45", "16:30", "18:15"]

/-- app.py line 34. -/
def SUN_SLOTS : List String := ["09:00", "10:45", "12:30", "14:45"]

/-- app.py lines 37-44: the fixed lookup table from the CSV's free-text
time-slot descriptions to canonical slot keys. -/
def SLOT_MAPPING : List (String × String) :=
  [("09:00 AM – 10:30 AM", "09:00"),
   ("10:45 AM – 12:15 PM", "10:45"),
   ("12:30 PM – 02:00 PM", "12:30"),
   ("02:45 PM – 04:15 PM", "14:45"),
   ("04:30 PM – 06:00 PM", "16:30"),
   ("06:15 PM – 07:45 PM", "18:15")]

/-- Lookup in `SLOT_MAPPING`, the `Series.map` of app.py line 92 before
its `fillna`: `none` exactly when the raw text is not a key of the table. -/
def slotMapLookup (raw : String) : Option String :=
  (SLOT_MAPPING.find? (fun p => p.1 == raw)).map (fun p => p.2)

/-- app.py line 87: `str.replace` dropping every double-quote character
from the date text. -/
def stripQuotes (s : String) : String :=
  String.mk (s.data.filter (fun c => c ≠ Char.ofNat 34))

/-- app.py line 89: `Course_Section.str.split('_').str[0]` — the text
before the first underscore (the whole text when there is none). -/
def courseOf (sec : String) : String :=
  String.mk (sec.data.takeWhile (fun c => c ≠ '_'))

/-- app.py line 100: the synthetic faculty identity derived from the
course string alone. -/
def facultySyn (c : String) : String :=
  "Prof. " ++ c ++ " Lead"

/-- app.py lines 87-102: one row of `df_all` from one raw CSV row.
Unmapped `Time_Slot` text silently becomes the default slot `09:00`
(`.fillna('09:00')`, line 92); the room is the `CR` text plus the raw
room number (line 93); faculty is synthesized from the course (line 100). -/
def normalizeRow (r : RawRow) : Session :=
  { date := stripQuotes r.rDate
    week := r.rWeek
    day := r.rDay
    rawSlot := r.rTimeSlot
    slot := (slotMapLookup r.rTimeSlot).getD "09:00"
    room := "CR" ++ r.rRoomNumber
    sectionId := r.rCourseSection
    course := courseOf r.rCourseSection
    faculty := facultySyn (courseOf r.rCourseSection) }

/-- app.py lines 107-109: the enrolment loop appends `StudentID` to the
list kept for `Section_Label`; an enrolment row is the pair
(StudentID, Section_Label). `studentsOf en sec` is the list the
defaultdict holds for key `sec` after the loop. -/
def studentsOf (en : List (String × String)) (sec : String) : List String :=
  (en.filter (fun e => e.2 == sec)).map (fun e => e.1)

/-! ## Validation checks (app.py lines 400-461) -/

/-- The key of the room-conflict groupby, app.py line 406:
`(week, day, slot, room)`. -/
def roomKey (s : Session) : Int × String × String × String :=
  (s.week, s.day, s.slot, s.room)

/-- The key of the faculty-conflict groupby, app.py line 410:
`(week, day, slot, faculty)`. -/
def facKey (s : Session) : Int × String × String × String :=
  (s.week, s.day, s.slot, s.faculty)

/-- app.py lines 406-407: the number of `(week, day, slot, room)` groups
holding more than one session (`rc = int((rd>1).sum())`). -/
def rc (rows : List Session) : Nat :=
  (uniqueFirst (rows.map roomKey)).countP
    (fun k => decide (1 < rows.countP (fun s => decide (roomKey s = k))))

/-- app.py lines 410-411: the number of `(week, day, slot, faculty)`
groups holding more than one session. -/
def fc_v (rows : List Session) : Nat :=
  (uniqueFirst (rows.map facKey)).countP
    (fun k => decide (1 < rows.countP (fun s => decide (facKey s = k))))

/-- The sessions of one room-conflict group: the rows whose
`(week, day, slot, room)` key is `k` (what the groupby of app.py line 406
collects for that key before `.size()` discards it). -/
def sessionsAt (rows : List Session) (k : Int × String × String × String) :
    List Session :=
  rows.filter (fun s => decide (roomKey s = k))

/-- app.py lines 422-423, the matrix test for one ordered pair: the first
section is an index row of the conflict matrix, the second one of its
columns, and the cell value v satisfies 0 < v < 9000. The matrix is
modelled as a partial map; `none` covers a missing row/column or an empty
cell. -/
def overlapCond (cm : String → String → Option Int) (a b : String) : Bool :=
  match cm a b with
  | some v => decide (0 < v) && decide (v < 9000)
  | none => false

/-- app.py lines 420-424: the inner double loop over index pairs i < j of
the bucket's section list, counting pairs that satisfy `overlapCond`. -/
def countPairs (cm : String → String → Option Int) : List String → Nat
  | [] => 0
  | a :: rest => rest.countP (fun b => overlapCond cm a b) + countPairs cm rest

/-- All ordered pairs (earlier element, later element) of a list — the
pairs the double loop of app.py lines 420-421 visits, in its order. -/
def pairList {α : Type _} : List α → List (α × α)
  | [] => []
  | a :: rest => rest.map (fun b => (a, b)) ++ pairList rest

/-- app.py line 418: the distinct section ids of the rows in the
`(Date, Time_Slot)` bucket, in first-occurrence order
(`group['section_id'].unique().tolist()`). -/
def bucketSections (rows : List Session) (d t : String) : List String :=
  uniqueFirst ((rows.filter (fun s => s.date == d && s.rawSlot == t)).map
    (fun s => s.sectionId))

/-- The distinct `(Date, Time_Slot)` keys of app.py line 416's groupby.
The groupby iterates them sorted; the total below is order-independent,
so first-occurrence order is used. -/
def dateSlotKeys (rows : List Session) : List (String × String) :=
  uniqueFirst (rows.map (fun s => (s.date, s.rawSlot)))

/-- app.py lines 415-424: the student-overlap tally `overlap_fails` —
for every `(Date, Time_Slot)` bucket with more than one distinct active
section, every index pair i < j of its section list satisfying
`overlapCond` adds one. -/
def overlap_fails (rows : List Session) (cm : String → String → Option Int) : Nat :=
  ((dateSlotKeys rows).map (fun k =>
    let secs := bucketSections rows k.1 k.2
    if 1 < secs.length then countPairs cm secs else 0)).sum

/-- app.py lines 429-431, for one section and one week: the frozenset of
`(day, slot)` pairs of that section's sessions in that week. -/
def weekSlotSet (rows : List Session) (sid : String) (w : Int) :
    Finset (String × String) :=
  ((rows.filter (fun s => s.sectionId == sid && s.week == w)).map
    (fun s => (s.day, s.slot))).toFinset

/-- The weeks in which section `sid` has at least one session (the keys of
the per-week groupby of app.py line 430). -/
def sectionWeeks (rows : List Session) (sid : String) : List Int :=
  uniqueFirst ((rows.filter (fun s => s.sectionId == sid)).map (fun s => s.week))

/-- app.py lines 429-433 for one section: the section passes when the
distinct per-week `(day, slot)` sets number at most one
(`len(ps) > 1` flips `pat_ok`). -/
def sectionPatOk (rows : List Session) (sid : String) : Bool :=
  (uniqueFirst ((sectionWeeks rows sid).map
    (fun w => weekSlotSet rows sid w))).length ≤ 1

/-- app.py lines 427-435: `pat_ok` is true when every section passes
(the loop's early break only skips further sections after the first
failure; the resulting boolean is the same). -/
def pat_ok (rows : List Session) : Bool :=
  (uniqueFirst (rows.map (fun s => s.sectionId))).all
    (fun sid => sectionPatOk rows sid)

/-- Spec-side definition, following the specification's words rather than
the source, for comparison with `pat_ok`: one PatternViolation per
section and diverging week — for each section meeting in more than one
week, every later week whose `(day, slot)` set differs from the first
week's set, paired with the section id. -/
def patternViolationsSpec (rows : List Session) : List (String × Int) :=
  (uniqueFirst (rows.map (fun s => s.sectionId))).flatMap (fun sid =>
    match sectionWeeks rows sid with
    | [] => []
    | w0 :: ws =>
      (ws.filter (fun w => weekSlotSet rows sid w ≠ weekSlotSet rows sid w0)).map
        (fun w => (sid, w)))

/-- app.py line 438: the Python set `set(WD_SLOTS + SUN_SLOTS)` the slot
check tests membership in. -/
def allowedSlots : List String :=
  uniqueFirst (WD_SLOTS ++ SUN_SLOTS)

/-- app.py lines 438-439: the number of rows whose `slot` is not in
`allowedSlots` (`bad = (~df_all['slot'].isin(...)).sum()`). The row's
`day` plays no part. -/
def badCount (rows : List Session) : Nat :=
  rows.countP (fun s => !(decide (s.slot ∈ allowedSlots)))

/-- Whitespace trim of both ends, as Python `int()` applies to its
argument before parsing. -/
def trimWs (l : List Char) : List Char :=
  ((l.dropWhile Char.isWhitespace).reverse.dropWhile Char.isWhitespace).reverse

/-- A nonempty all-digit character list as a number, else `none`. -/
def parseDigits (l : List Char) : Option Nat :=
  if l ≠ [] ∧ l.all Char.isDigit then
    some (l.foldl (fun a c => a * 10 + (c.toNat - 48)) 0)
  else none

/-- Python `int(text)` on a string: optional surrounding whitespace, an
optional sign, then decimal digits; anything else raises, modelled as
`none`. -/
def parseIntPy (s : String) : Option Int :=
  match trimWs s.data with
  | '-' :: rest => (parseDigits rest).map (fun n => -(n : Int))
  | '+' :: rest => (parseDigits rest).map (fun n => (n : Int))
  | l => (parseDigits l).map (fun n => (n : Int))

/-- Python `text.replace('CR', '')`: drop every non-overlapping
occurrence of the two characters C R, scanning left to right. -/
def stripCRAux : List Char → List Char
  | 'C' :: 'R' :: rest => stripCRAux rest
  | c :: rest => c :: stripCRAux rest
  | [] => []

/-- app.py line 443's `row['room'].replace('CR','')` as a string map. -/
def stripCR (s : String) : String :=
  String.mk (stripCRAux s.data)

/-- app.py line 442: the week's room ceiling, 10 for weeks up to 4 and 4
afterwards (`mx = 10 if row['week'] <= 4 else 4`). -/
def maxRoom (w : Int) : Int :=
  if w ≤ 4 then 10 else 4

/-- app.py lines 441-444, the per-row room check `rchk`: parse the room
text with the CR marker removed; a number passes when it is at most the
week's ceiling, and a failed parse is swallowed by the bare `except`,
returning True. -/
def rchk (s : Session) : Bool :=
  match parseIntPy (stripCR s.room) with
  | some n => decide (n ≤ maxRoom s.week)
  | none => true

/-- The rows failing `rchk` — the False entries of the Series
`df_all.apply(rchk, axis=1)` of app.py line 445. -/
def roomFails (rows : List Session) : List Session :=
  rows.filter (fun s => !(rchk s))

/-- app.py line 445: `ra = df_all.apply(rchk, axis=1).all()`. -/
def ra (rows : List Session) : Bool :=
  rows.all rchk

/-- app.py line 404: the first check, `len(df_all) >= 940`. -/
def sessionsOk (rows : List Session) : Bool :=
  940 ≤ rows.length

/-- app.py line 448: a hard-coded passing check. -/
def breakComplianceOk : Bool := true

/-- app.py line 449: a hard-coded passing check. -/
def sundayEndOk : Bool := true

/-- app.py lines 451-461: the aggregate verdict is the conjunction of
every entry of the `checks` list, in its order (line 458,
`all(ok for _,_,ok in checks)`). -/
def allChecksOk (rows : List Session) (cm : String → String → Option Int) : Bool :=
  sessionsOk rows && decide (rc rows = 0) && decide (fc_v rows = 0) &&
    decide (overlap_fails rows cm = 0) && pat_ok rows &&
    decide (badCount rows = 0) && ra rows && breakComplianceOk && sundayEndOk

/-! ## Concrete inputs used by counterexamples and witnesses -/

/-- A template session row; the examples below vary single fields. -/
def baseSession : Session :=
  { date := "2025-01-06"
    week := 1
    day := "Monday"
    rawSlot := "09:00 AM – 10:30 AM"
    slot := "09:00"
    room := "CR1"
    sectionId := "X_1"
    course := "X"
    faculty := "Prof. X Lead" }

/-- Two sections A_1 and B_1 active in the same `(Date, Time_Slot)`
bucket (different rooms), the co-scheduling of the spec's overlap
examples. -/
def overlapRows : List Session :=
  [{ baseSession with
       sectionId := "A_1"
       course := "A"
       faculty := "Prof. A Lead"
       room := "CR1" },
   { baseSession with
       sectionId := "B_1"
       course := "B"
       faculty := "Prof. B Lead"
       room := "CR2" }]

/-- A symmetric conflict matrix holding value `v` for the pair
(A_1, B_1) and nothing else. -/
def cmOf (v : Int) : String → String → Option Int := fun a b =>
  if (a = "A_1" ∧ b = "B_1") ∨ (a = "B_1" ∧ b = "A_1") then some v else none

/-- The everywhere-empty conflict matrix. -/
def cmNone : String → String → Option Int := fun _ _ => none

/-- A Sunday session sitting in the weekday-only slot 16:30. -/
def sunday1630 : Session :=
  { baseSession with
      day := "Sunday"
      rawSlot := "04:30 PM – 06:00 PM"
      slot := "16:30" }

/-- Section X_1 meets (Monday,09:00) and (Wednesday,09:00) in week 1 but
only (Monday,09:00) in week 2 — the spec's weekly-pattern example. -/
def patRowsWeek2 : List Session :=
  [baseSession,
   { baseSession with day := "Wednesday" },
   { baseSession with week := 2, date := "2025-01-13" }]

/-- The same divergence, but in week 3 instead of week 2. -/
def patRowsWeek3 : List Session :=
  [baseSession,
   { baseSession with day := "Wednesday" },
   { baseSession with week := 3, date := "2025-01-20" }]

/-- A week-3 session in room CR12, above that week's ceiling of 10. -/
def sessRoom12 : Session :=
  { baseSession with week := 3, room := "CR12" }

/-- A week-3 session in room CR8, within that week's ceiling of 10. -/
def sessRoom8 : Session :=
  { baseSession with week := 3, room := "CR8" }

/-- A session whose room text CRXY does not parse to a number. -/
def sessRoomXY : Session :=
  { baseSession with week := 5, room := "CRXY" }

/-- Sections A_1 and A_2 double-booked into the same
`(week, day, slot, room)` key. -/
def roomClashA : List Session :=
  [{ baseSession with
       sectionId := "A_1"
       course := "A"
       faculty := "Prof. A Lead" },
   { baseSession with
       sectionId := "A_2"
       course := "A"
       faculty := "Prof. A Lead" }]

/-- Sections B_1 and B_2 double-booked into the very same key as
`roomClashA`, with different offending sessions. -/
def roomClashB : List Session :=
  [{ baseSession with
       sectionId := "B_1"
       course := "B"
       faculty := "Prof. B Lead" },
   { baseSession with
       sectionId := "B_2"
       course := "B"
       faculty := "Prof. B Lead" }]

/-- The shared `(week, day, slot, room)` key of both clash examples. -/
def clashKey : Int × String × String × String :=
  (1, "Monday", "09:00", "CR1")

/-- A raw schedule row whose `Time_Slot` text is not a key of
`SLOT_MAPPING`. -/
def rawBogusSlot : RawRow :=
  { rDate := "2025-01-06"
    rWeek := 1
    rDay := "Monday"
    rTimeSlot := "07:00 AM – 08:30 AM"
    rRoomNumber := "1"
    rCourseSection := "X_1" }

/-- An enrolment table in which the pair (S1, A_1) appears twice. -/
def enDup : List (String × String) :=
  [("S1", "A_1"), ("S1", "A_1"), ("S2", "A_1")]

/-- Two raw rows: distinct sections OM_1 and OM_2 of the same course OM,
scheduled in the same week, day and time slot but different rooms. -/
def rawOM1 : RawRow :=
  { rDate := "2025-01-06"
    rWeek := 1
    rDay := "Monday"
    rTimeSlot := "09:00 AM – 10:30 AM"
    rRoomNumber := "1"
    rCourseSection := "OM_1" }

/-- See `rawOM1`. -/
def rawOM2 : RawRow :=
  { rawOM1 with rRoomNumber := "2", rCourseSection := "OM_2" }

/-- The normalized two-row schedule of `rawOM1` and `rawOM2`. -/
def facultyClashRows : List Session :=
  [normalizeRow rawOM1, normalizeRow rawOM2]

/-! ## General lemmas about the embedding's list operations -/

theorem mem_uniqueFirstAux [DecidableEq α] {x : α} :
    ∀ {seen l : List α}, x ∈ uniqueFirstAux seen l ↔ x ∈ l ∧ x ∉ seen := by
  intro seen l
  induction l generalizing seen with
  | nil => simp [uniqueFirstAux]
  | cons a rest ih =>
    by_cases h : a ∈ seen
    · rw [uniqueFirstAux, if_pos h, ih]
      constructor
      · rintro ⟨hx, hns⟩; exact ⟨List.mem_cons_of_mem _ hx, hns⟩
      · rintro ⟨hx, hns⟩
        rcases List.mem_cons.mp hx with rfl | hx2
        · exact absurd h hns
        · exact ⟨hx2, hns⟩
    · rw [uniqueFirstAux, if_neg h, List.mem_cons, ih]
      constructor
      · rintro (rfl | ⟨hx, hns⟩)
        · exact ⟨List.mem_cons_self _ _, h⟩
        · refine ⟨List.mem_cons_of_mem _ hx, fun hc => hns (List.mem_cons_of_mem _ hc)⟩
      · rintro ⟨hx, hns⟩
        rcases List.mem_cons.mp hx with rfl | hx2
        · exact Or.inl rfl
        · by_cases hxa : x = a
          · exact Or.inl hxa
          · refine Or.inr ⟨hx2, fun hc => ?_⟩
            rcases List.mem_cons.mp hc with h1 | h2
            · exact hxa h1
            · exact hns h2

theorem mem_uniqueFirst [DecidableEq α] {x : α} {l : List α} :
    x ∈ uniqueFirst l ↔ x ∈ l := by
  simp [uniqueFirst, mem_uniqueFirstAux]

theorem uniqueFirstAux_eq_nil [DecidableEq α] :
    ∀ {seen l : List α}, uniqueFirstAux seen l = [] ↔ ∀ x ∈ l, x ∈ seen := by
  intro seen l
  induction l generalizing seen with
  | nil => simp [uniqueFirstAux]
  | cons a rest ih =>
    by_cases h : a ∈ seen
    · simp only [uniqueFirstAux, if_pos h, ih, List.mem_cons]
      constructor
      · rintro hall x (rfl | hx)
        · exact h
        · exact hall x hx
      · intro hall x hx
        exact hall x (Or.inr hx)
    · simp only [uniqueFirstAux, if_neg h]
      constructor
      · intro hc; exact absurd hc (List.cons_ne_nil _ _)
      · intro hall; exact absurd (hall a (List.mem_cons_self a rest)) h

theorem uniqueFirst_length_le_one [DecidableEq α] (l : List α) :
    (uniqueFirst l).length ≤ 1 ↔ ∀ a ∈ l, ∀ b ∈ l, a = b := by
  cases l with
  | nil => simp [uniqueFirst, uniqueFirstAux]
  | cons a rest =>
    have hrw : uniqueFirst (a :: rest) = a :: uniqueFirstAux [a] rest := by
      simp [uniqueFirst, uniqueFirstAux]
    rw [hrw]
    have hlen : (a :: uniqueFirstAux [a] rest).length ≤ 1 ↔
        uniqueFirstAux [a] rest = [] := by
      rw [List.length_cons]
      constructor
      · intro h
        have h0 : (uniqueFirstAux [a] rest).length = 0 := by omega
        exact List.length_eq_zero.mp h0
      · intro h; rw [h]; simp
    rw [hlen, uniqueFirstAux_eq_nil]
    constructor
    · intro hall x hx y hy
      have hx' : x = a := by
        rcases List.mem_cons.mp hx with rfl | hx2
        · rfl
        · simpa using hall x hx2
      have hy' : y = a := by
        rcases List.mem_cons.mp hy with rfl | hy2
        · rfl
        · simpa using hall y hy2
      rw [hx', hy']
    · intro hall x hx
      have := hall x (List.mem_cons_of_mem _ hx) a (List.mem_cons_self a rest)
      simpa using this

theorem one_lt_length_of_two_mem {α : Type _} {a b : α} {l : List α}
    (ha : a ∈ l) (hb : b ∈ l) (hne : a ≠ b) : 1 < l.length := by
  match l with
  | [] => exact absurd ha (List.not_mem_nil a)
  | [x] =>
    rcases List.mem_singleton.mp ha with rfl
    rcases List.mem_singleton.mp hb with rfl
    exact absurd rfl hne
  | x :: y :: rest =>
    have h2 : (x :: y :: rest).length = rest.length + 2 := by
      simp [List.length_cons]
    omega

/-- A list of length at most one has all its members equal. -/
theorem length_le_one_mem_eq {α : Type _} {l : List α} (h : l.length ≤ 1) :
    ∀ x ∈ l, ∀ y ∈ l, x = y := by
  match l with
  | [] => intro x hx; exact absurd hx (List.not_mem_nil x)
  | [a] =>
    intro x hx y hy
    rw [List.mem_singleton.mp hx, List.mem_singleton.mp hy]
  | a :: b :: rest => simp [List.length_cons] at h

/-! ## C1 — student-overlap check versus the conflict matrix -/

/-- C1 counterexample: the matrix value 9500 for the co-scheduled pair
(A_1, B_1) is present, greater than zero and below the diagonal sentinel
9999, the pair lies in a bucket with more than one active section, and
yet the student-overlap check emits no violation at all — the claim's
cutoff "below the sentinel 9999" does not match the code. -/
theorem C1_counterexample :
    cmOf 9500 "A_1" "B_1" = some 9500 ∧ (0 : Int) < 9500 ∧ (9500 : Int) < 9999 ∧
    ("2025-01-06", "09:00 AM – 10:30 AM") ∈ dateSlotKeys overlapRows ∧
    1 < (bucketSections overlapRows "2025-01-06" "09:00 AM – 10:30 AM").length ∧
    ("A_1", "B_1") ∈
      pairList (bucketSections overlapRows "2025-01-06" "09:00 AM – 10:30 AM") ∧
    overlap_fails overlapRows (cmOf 9500) = 0 := by
  decide

/-- C1 (amended): within each (date, raw time-slot) bucket holding more
than one active section, the double loop counts exactly the section
pairs whose matrix value is present, greater than zero and strictly
below 9000 — not below the sentinel 9999; in particular a recorded
value of 5 for a co-scheduled pair yields exactly one violation, and the
sentinel value 9999 yields none. -/
theorem C1_overlap_threshold :
    (∀ (cm : String → String → Option Int) (l : List String),
       countPairs cm l = (pairList l).countP (fun p => overlapCond cm p.1 p.2)) ∧
    (∀ (cm : String → String → Option Int) (a b : String),
       overlapCond cm a b = true ↔ ∃ v, cm a b = some v ∧ 0 < v ∧ v < 9000) ∧
    overlap_fails overlapRows (cmOf 5) = 1 ∧
    overlap_fails overlapRows (cmOf 9999) = 0 := by
  refine ⟨?_, ?_, by decide, by decide⟩
  · intro cm l
    induction l with
    | nil => rfl
    | cons a rest ih =>
      simp only [countPairs, pairList, List.countP_append, ih, List.countP_map]
      rfl
  · intro cm a b
    unfold overlapCond
    cases hc : cm a b with
    | none => simp
    | some v => simp

/-! ## C2 — slot validity ignores the session's day -/

/-- C2 counterexample: a Sunday session in the weekday-only slot 16:30 —
its slot is outside the Sunday slot set, yet the slot-validity check
flags nothing, because the check tests membership in the union of both
slot lists and never looks at the day. -/
theorem C2_counterexample :
    sunday1630.day = "Sunday" ∧ sunday1630.slot = "16:30" ∧
    decide (sunday1630.slot ∈ SUN_SLOTS) = false ∧ badCount [sunday1630] = 0 :=
  ⟨rfl, rfl, by decide, by decide⟩

/-- C2 (amended): the slot-validity check flags a Session exactly when
its slot lies in neither the weekday slot list nor the Sunday slot list
(their union; the day of the Session plays no part), so a Sunday session
in the weekday-only slot 16:30 is not flagged. -/
theorem C2_slot_check_ignores_day :
    (∀ rows : List Session,
       badCount rows =
         rows.countP (fun s => decide (s.slot ∉ WD_SLOTS ∧ s.slot ∉ SUN_SLOTS))) ∧
    badCount [sunday1630] = 0 ∧ sunday1630.day = "Sunday" ∧
    decide (sunday1630.slot ∈ SUN_SLOTS) = false := by
  refine ⟨?_, by decide, rfl, by decide⟩
  intro rows
  unfold badCount
  apply List.countP_congr
  intro s _
  have hmem : s.slot ∈ allowedSlots ↔ s.slot ∈ WD_SLOTS ∨ s.slot ∈ SUN_SLOTS := by
    rw [allowedSlots, mem_uniqueFirst, List.mem_append]
  simp only [Bool.not_eq_true', decide_eq_false_iff_not, decide_eq_true_eq, hmem]
  tauto

/-! ## C3 — the zero-row input -/

/-- C3 counterexample: on the input with zero schedule rows, zero
enrolments and an empty conflict matrix, every violation-based check
passes with zero violations, but the sessions-scheduled check (at least
940 rows) fails, so the aggregate verdict is not PASS. -/
theorem C3_counterexample :
    rc ([] : List Session) = 0 ∧ fc_v ([] : List Session) = 0 ∧
    overlap_fails ([] : List Session) cmNone = 0 ∧
    pat_ok ([] : List Session) = true ∧ badCount ([] : List Session) = 0 ∧
    ra ([] : List Session) = true ∧ sessionsOk ([] : List Session) = false ∧
    allChecksOk ([] : List Session) cmNone = false :=
  ⟨rfl, rfl, rfl, rfl, rfl, rfl, rfl, rfl⟩

/-- C3 (amended): for the zero-row input and any conflict matrix, the
room, faculty, overlap, pattern, slot and capacity checks all pass with
zero violations, yet the sessions-scheduled check fails (0 < 940
required sessions), so the aggregate verdict is FAIL rather than PASS. -/
theorem C3_empty_input (cm : String → String → Option Int) :
    rc ([] : List Session) = 0 ∧ fc_v ([] : List Session) = 0 ∧
    overlap_fails ([] : List Session) cm = 0 ∧
    pat_ok ([] : List Session) = true ∧ badCount ([] : List Session) = 0 ∧
    ra ([] : List Session) = true ∧ sessionsOk ([] : List Session) = false ∧
    allChecksOk ([] : List Session) cm = false :=
  ⟨rfl, rfl, rfl, rfl, rfl, rfl, rfl, rfl⟩

/-! ## C4 — weekly pattern recurrence -/

/-- C4 counterexample: the spec's own example (Monday and Wednesday
09:00 in week 1, Monday 09:00 only in week 2) and a second schedule
diverging in week 3 instead produce the identical check output — the
single boolean false — although the required PatternViolations name
different weeks; the check therefore emits no PatternViolation naming
the section and the diverging week. -/
theorem C4_counterexample :
    pat_ok patRowsWeek2 = false ∧ pat_ok patRowsWeek3 = false ∧
    patternViolationsSpec patRowsWeek2 = [("X_1", 2)] ∧
    patternViolationsSpec patRowsWeek3 = [("X_1", 3)] ∧
    weekSlotSet patRowsWeek2 "X_1" 1 =
      ({("Monday", "09:00"), ("Wednesday", "09:00")} : Finset (String × String)) ∧
    weekSlotSet patRowsWeek2 "X_1" 2 = {("Monday", "09:00")} := by
  decide

/-- C4 (amended): a section passes the weekly-pattern check exactly when
its (day, slot) set is the same in every week it meets, a section
occupying at most one week trivially passes, and the whole check passes
exactly when every section passes — but on failure the check yields only
this single boolean, not a PatternViolation naming the section and the
diverging week. -/
theorem C4_weekly_pattern :
    (∀ (rows : List Session) (sid : String),
       sectionPatOk rows sid = true ↔
         ∀ w1 ∈ sectionWeeks rows sid, ∀ w2 ∈ sectionWeeks rows sid,
           weekSlotSet rows sid w1 = weekSlotSet rows sid w2) ∧
    (∀ (rows : List Session) (sid : String),
       (sectionWeeks rows sid).length ≤ 1 → sectionPatOk rows sid = true) ∧
    (∀ rows : List Session,
       pat_ok rows = true ↔
         ∀ sid ∈ uniqueFirst (rows.map (fun s => s.sectionId)),
           sectionPatOk rows sid = true) := by
  have hmain : ∀ (rows : List Session) (sid : String),
      sectionPatOk rows sid = true ↔
        ∀ w1 ∈ sectionWeeks rows sid, ∀ w2 ∈ sectionWeeks rows sid,
          weekSlotSet rows sid w1 = weekSlotSet rows sid w2 := by
    intro rows sid
    unfold sectionPatOk
    rw [decide_eq_true_eq, uniqueFirst_length_le_one]
    constructor
    · intro h w1 h1 w2 h2
      exact h _ (List.mem_map_of_mem _ h1) _ (List.mem_map_of_mem _ h2)
    · intro h a ha b hb
      rcases List.mem_map.mp ha with ⟨w1, h1, rfl⟩
      rcases List.mem_map.mp hb with ⟨w2, h2, rfl⟩
      exact h w1 h1 w2 h2
  refine ⟨hmain, ?_, ?_⟩
  · intro rows sid hlen
    rw [hmain rows sid]
    intro w1 h1 w2 h2
    exact congrArg (weekSlotSet rows sid) (length_le_one_mem_eq hlen w1 h1 w2 h2)
  · intro rows
    unfold pat_ok
    rw [List.all_eq_true]

/-- C4 witness: a section meeting in one week only trivially passes the
pattern check, by the amended theorem at a concrete input. -/
theorem C4_weekly_pattern_witness :
    sectionPatOk overlapRows "A_1" = true :=
  C4_weekly_pattern.2.1 overlapRows "A_1" (by decide)

/-! ## C5 — room-capacity ceiling as a step function of the week -/

/-- C5: the room ceiling is the step function of the week (10 up to week
4, then 4); a session whose parsed room number exceeds its week's
ceiling fails the per-row check and is exactly one entry of the failing
rows, and a session within the ceiling contributes none. -/
theorem C5_room_ceiling (s : Session) (n : Int)
    (h : parseIntPy (stripCR s.room) = some n) :
    (rchk s = false ↔ maxRoom s.week < n) ∧
    (roomFails [s]).length = (if maxRoom s.week < n then 1 else 0) ∧
    (s.week ≤ 4 → maxRoom s.week = 10) ∧ (4 < s.week → maxRoom s.week = 4) := by
  have hr : rchk s = decide (n ≤ maxRoom s.week) := by simp [rchk, h]
  refine ⟨?_, ?_, ?_, ?_⟩
  · rw [hr]
    constructor
    · intro hd
      have := of_decide_eq_false hd
      omega
    · intro hlt
      apply decide_eq_false
      omega
  · by_cases hc : maxRoom s.week < n
    · rw [if_pos hc]
      have hf : rchk s = false := by
        rw [hr]; exact decide_eq_false (by omega)
      simp [roomFails, List.filter_cons, hf]
    · rw [if_neg hc]
      have ht : rchk s = true := by
        rw [hr]; exact decide_eq_true (by omega)
      simp [roomFails, List.filter_cons, ht]
  · intro h4
    rw [maxRoom, if_pos h4]
  · intro h4
    rw [maxRoom, if_neg (by omega)]

/-- C5 witness: room CR12 in week 3 (ceiling 10) fails the check and is
exactly one violation; room CR8 in the same week passes with none. -/
theorem C5_room_ceiling_witness :
    rchk sessRoom12 = false ∧ (roomFails [sessRoom12]).length = 1 ∧
    rchk sessRoom8 = true ∧ (roomFails [sessRoom8]).length = 0 := by
  have h12 := C5_room_ceiling sessRoom12 12 rfl
  have h8 := C5_room_ceiling sessRoom8 8 rfl
  refine ⟨h12.1.mpr (by decide), ?_, ?_, ?_⟩
  · have := h12.2.1
    rwa [if_pos (by decide)] at this
  · cases hb : rchk sessRoom8
    · exact absurd (h8.1.mp hb) (by decide)
    · rfl
  · have := h8.2.1
    rwa [if_neg (by decide)] at this

/-! ## C6 — double-booking checks count keys, not session lists -/

/-- C6 counterexample: two schedules double-booking the same
(week, day, slot, room) key with different offending sessions give the
identical check result (the count 1), so the reported violation cannot
be carrying or listing the offending Sessions. -/
theorem C6_counterexample :
    rc roomClashA = 1 ∧ rc roomClashB = 1 ∧ rc roomClashA = rc roomClashB ∧
    sessionsAt roomClashA clashKey ≠ sessionsAt roomClashB clashKey := by
  decide

/-- C6 (amended): the room-double-booking count equals the number of
distinct (week, day, slot, room) keys occupied by more than one Session
— exactly one unit per such key, none for keys with at most one Session
— every multiply-occupied key is among the counted keys, and the faculty
check applies the identical rule over (week, day, slot, faculty) keys;
the report holds only this count of keys, not the Session lists. -/
theorem C6_per_key_counting :
    (∀ rows : List Session,
       rc rows = ((uniqueFirst (rows.map roomKey)).filter
         (fun k => decide (1 < (sessionsAt rows k).length))).length) ∧
    (∀ (rows : List Session) (k : Int × String × String × String),
       1 < (sessionsAt rows k).length → k ∈ uniqueFirst (rows.map roomKey)) ∧
    (∀ rows : List Session,
       fc_v rows = ((uniqueFirst (rows.map facKey)).filter
         (fun k => decide (1 <
           (rows.filter (fun s => decide (facKey s = k))).length))).length) := by
  refine ⟨?_, ?_, ?_⟩
  · intro rows
    rw [rc, List.countP_eq_length_filter]
    congr 1
    apply List.filter_congr
    intro k _
    simp [sessionsAt, List.countP_eq_length_filter]
  · intro rows k hk
    have hne : sessionsAt rows k ≠ [] := by
      intro he
      rw [he] at hk
      simp at hk
    obtain ⟨s, hs⟩ := List.exists_mem_of_ne_nil _ hne
    rcases List.mem_filter.mp hs with ⟨hmem, hdec⟩
    have hkey : roomKey s = k := of_decide_eq_true hdec
    rw [mem_uniqueFirst]
    exact hkey ▸ List.mem_map_of_mem roomKey hmem
  · intro rows
    rw [fc_v, List.countP_eq_length_filter]
    congr 1
    apply List.filter_congr
    intro k _
    simp [List.countP_eq_length_filter]

/-- C6 witness: the double-booked key of the concrete clash schedule is
among the keys the check counts, by the amended theorem. -/
theorem C6_per_key_counting_witness :
    clashKey ∈ uniqueFirst (roomClashA.map roomKey) :=
  C6_per_key_counting.2.1 roomClashA clashKey (by decide)

/-! ## C7 — unmapped time-slot text defaults instead of failing -/

/-- C7 counterexample: a raw row whose time-slot text is not a key of
the lookup table normalizes successfully to the default slot 09:00 — no
UnmappedSlot error condition exists in the code. -/
theorem C7_counterexample :
    slotMapLookup rawBogusSlot.rTimeSlot = none ∧
    (normalizeRow rawBogusSlot).slot = "09:00" :=
  ⟨rfl, rfl⟩

/-- C7 (amended): normalization maps a raw row whose time-slot text is
unmapped to the default canonical slot 09:00 and never fails; mapped
text yields its table value. -/
theorem C7_unmapped_slot_defaults (r : RawRow) :
    (slotMapLookup r.rTimeSlot = none → (normalizeRow r).slot = "09:00") ∧
    (∀ v, slotMapLookup r.rTimeSlot = some v → (normalizeRow r).slot = v) := by
  constructor
  · intro h; simp [normalizeRow, h]
  · intro v h; simp [normalizeRow, h]

/-- C7 witness: the amended theorem at the concrete unmapped row. -/
theorem C7_unmapped_slot_defaults_witness :
    (normalizeRow rawBogusSlot).slot = "09:00" :=
  (C7_unmapped_slot_defaults rawBogusSlot).1 rfl

/-! ## C8 — non-numeric rooms silently pass the capacity check -/

/-- C8 counterexample: the session in room CRXY has no numeric room
value, yet the per-row capacity check returns True and the whole-table
check passes — no distinct input error is surfaced. -/
theorem C8_counterexample :
    parseIntPy (stripCR sessRoomXY.room) = none ∧ rchk sessRoomXY = true ∧
    ra [sessRoomXY] = true :=
  ⟨rfl, rfl, rfl⟩

/-- C8 (amended): a Session whose room text does not parse to a number
is treated as satisfying the capacity policy — the bare except of the
row check turns the parse failure into True — rather than being
surfaced as an input error. -/
theorem C8_nonnumeric_room_passes (s : Session)
    (h : parseIntPy (stripCR s.room) = none) :
    rchk s = true ∧ ra [s] = true := by
  constructor
  · simp [rchk, h]
  · simp [ra, rchk, h]

/-- C8 witness: the amended theorem at the concrete CRXY session. -/
theorem C8_nonnumeric_room_passes_witness :
    rchk sessRoomXY = true ∧ ra [sessRoomXY] = true :=
  C8_nonnumeric_room_passes sessRoomXY rfl

/-! ## C9 — the enrolment map keeps duplicates -/

/-- C9 counterexample: with the pair (S1, A_1) enrolled twice, the
section's student list holds S1 twice — the mapping is a list built by
appending, not a deduplicated set. -/
theorem C9_counterexample :
    studentsOf enDup "A_1" = ["S1", "S1", "S2"] ∧
    1 < (studentsOf enDup "A_1").count "S1" := by
  exact ⟨rfl, by decide⟩

/-- C9 (amended): for every enrolment table, section and student, the
student's multiplicity in the section's list equals the number of
occurrences of the (student, section) pair in the table — duplicates
are preserved one for one, and the construction never fails. -/
theorem C9_duplicates_kept (en : List (String × String)) (sec stu : String) :
    (studentsOf en sec).count stu = en.count (stu, sec) := by
  induction en with
  | nil => rfl
  | cons e rest ih =>
    rcases e with ⟨st, sc⟩
    by_cases h : sc = sec
    · subst h
      simp only [studentsOf, List.filter_cons] at *
      simp only [beq_self_eq_true, if_pos, List.map_cons, List.count_cons, ih]
      simp [Prod.ext_iff]
    · simp only [studentsOf, List.filter_cons] at *
      have hb : ((st, sc).2 == sec) = false := by simpa using h
      simp only [hb, Bool.false_eq_true, if_false, ih, List.count_cons]
      have : ¬((st, sc) = (stu, sec)) := by
        simp [Prod.ext_iff, h]
      simp [this]

/-! ## C10 — synthetic faculty makes same-course sections collide -/

/-- C10: the synthetic faculty identity of a normalized row is a pure
function of its course string, so two distinct sections of the same
course scheduled in the same (week, day, slot) — rooms unconstrained —
share their faculty key, that key is occupied by more than one Session,
and the faculty double-booking check counts at least one conflict. -/
theorem C10_synthetic_faculty :
    (∀ r : RawRow, (normalizeRow r).faculty = facultySyn (normalizeRow r).course) ∧
    (∀ (rows : List Session) (s1 s2 : Session),
       s1 ∈ rows → s2 ∈ rows → s1.sectionId ≠ s2.sectionId →
       s1.course = s2.course →
       s1.faculty = facultySyn s1.course → s2.faculty = facultySyn s2.course →
       s1.week = s2.week → s1.day = s2.day → s1.slot = s2.slot →
       facKey s1 = facKey s2 ∧
       1 < rows.countP (fun s => decide (facKey s = facKey s1)) ∧
       0 < fc_v rows) := by
  constructor
  · intro r
    rfl
  · intro rows s1 s2 h1 h2 hsec hcourse hf1 hf2 hw hd hs
    have hfac : s1.faculty = s2.faculty := by rw [hf1, hf2, hcourse]
    have hkey : facKey s1 = facKey s2 := by
      unfold facKey
      rw [hw, hd, hs, hfac]
    have hne : s1 ≠ s2 := fun he => hsec (congrArg Session.sectionId he)
    have m1 : s1 ∈ rows.filter (fun s => decide (facKey s = facKey s1)) :=
      List.mem_filter.mpr ⟨h1, decide_eq_true rfl⟩
    have m2 : s2 ∈ rows.filter (fun s => decide (facKey s = facKey s1)) :=
      List.mem_filter.mpr ⟨h2, decide_eq_true hkey.symm⟩
    have hcount : 1 < rows.countP (fun s => decide (facKey s = facKey s1)) := by
      rw [List.countP_eq_length_filter]
      exact one_lt_length_of_two_mem m1 m2 hne
    refine ⟨hkey, hcount, ?_⟩
    rw [fc_v]
    exact List.countP_pos_iff.mpr ⟨facKey s1,
      mem_uniqueFirst.mpr (List.mem_map_of_mem facKey h1), decide_eq_true hcount⟩

/-- C10 witness: the normalized sections OM_1 and OM_2 of course OM,
co-scheduled in different rooms, collide on their faculty key and the
faculty check reports a conflict. -/
theorem C10_synthetic_faculty_witness :
    facKey (normalizeRow rawOM1) = facKey (normalizeRow rawOM2) ∧
    0 < fc_v facultyClashRows := by
  have h := C10_synthetic_faculty.2 facultyClashRows
    (normalizeRow rawOM1) (normalizeRow rawOM2)
    (by decide) (by decide) (by decide) (by decide)
    rfl rfl rfl rfl rfl
  exact ⟨h.1, h.2.2⟩
